import Mathlib

/-!
# Verification of the aria-eye accessibility-tree engine

Shallow embedding of the core of the aria-eye repository
(src/src/injected/ariaSnapshot.ts and src/src/eye.ts) in Lean 4, together
with theorems settling the frozen specification claims.

Conventions of the embedding:
* JavaScript strings are Lean `String`s (lengths are counted in characters;
  all inputs of interest are plain text).
* JavaScript numbers used as scores are embedded as rationals (`ℚ`); the
  reference counter is a `Nat`.
* `undefined` values are `Option.none`; JavaScript truthiness of strings is
  the test for `""`.
* The role/name/state oracle (roleUtils, domUtils) is external per the spec
  (§1, §2): its per-element answers are carried as data on the embedded DOM
  elements.
* Mutation is embedded as explicit state passing (`RefState`, `BuildSt`).
-/

/-! ## Decimal rendering of the reference counter

The source mints references with the JavaScript string conversion
`(options?.refPrefix ?? "") + "e" + ++lastRef`.  `natToDec` embeds the
implicit number-to-string conversion (standard decimal digits); `decodeL`
is a decoding function used to prove that distinct counters yield distinct
reference strings. -/

/-- The decimal digit character for a digit value (values ≥ 10 cannot occur). -/
def digitChar10 (n : Nat) : Char :=
  match n with
  | 0 => '0' | 1 => '1' | 2 => '2' | 3 => '3' | 4 => '4'
  | 5 => '5' | 6 => '6' | 7 => '7' | 8 => '8' | 9 => '9'
  | _ => '?'

/-- Decimal digit list of a natural number, most significant first
(the JavaScript rendering of the reference counter). -/
def natToDecL (n : Nat) : List Char :=
  if h : n < 10 then [digitChar10 n]
  else natToDecL (n / 10) ++ [digitChar10 (n % 10)]
  termination_by n
  decreasing_by exact Nat.div_lt_self (by omega) (by omega)

/-- JavaScript decimal rendering of a number as a Lean string. -/
def natToDec (n : Nat) : String := ⟨natToDecL n⟩

/-- Digit value of a decimal digit character. -/
def undigit (c : Char) : Nat := c.toNat - 48

/-- Decode a decimal digit list (left inverse of `natToDecL`). -/
def decodeL (l : List Char) : Nat := l.foldl (fun a c => a * 10 + undigit c) 0

lemma undigit_digitChar10 : ∀ d : Nat, d < 10 → undigit (digitChar10 d) = d := by
  decide

lemma decodeL_natToDecL (n : Nat) : decodeL (natToDecL n) = n := by
  induction n using Nat.strong_induction_on with
  | _ n ih =>
    rw [natToDecL]
    split
    · rename_i h
      simp [decodeL, undigit_digitChar10 n h]
    · rename_i h
      have hlt : n / 10 < n := Nat.div_lt_self (by omega) (by omega)
      have hrec := ih _ hlt
      simp only [decodeL] at hrec ⊢
      rw [List.foldl_append, hrec]
      simp only [List.foldl_cons, List.foldl_nil]
      rw [undigit_digitChar10 (n % 10) (Nat.mod_lt _ (by omega))]
      omega

lemma natToDecL_injective : Function.Injective natToDecL := by
  intro a b h
  have := decodeL_natToDecL a
  rw [h, decodeL_natToDecL] at this
  omega

/-! ## Reference Assigner (src/src/injected/ariaSnapshot.ts, `ariaRef`)

The source keeps a process-wide counter `let lastRef = 0` and a per-element
cache `element._ariaRef : AriaRef`.  The embedding packs both into an
explicit `RefState` that the function threads. -/

/-- The per-element cached triple, type `AriaRef` of the source. -/
structure AriaRef where
  role : String
  name : String
  ref : String
  deriving DecidableEq, Repr

/-- Options of `generateAriaTree`/`ariaRef` (`{forAI?, refPrefix?}` in the
source; the prefix field is called `refPref` here). -/
structure BuildOptions where
  forAI : Bool := false
  refPref : Option String := none
  deriving DecidableEq, Repr

/-- Explicit state for `ariaRef`: the global counter `lastRef` and the
element's `_ariaRef` cache. -/
structure RefState where
  lastRef : Nat
  cache : Option AriaRef
  deriving DecidableEq, Repr

/-- The reference string minted for counter value `n`:
`prefix + "e" + n` in the source. -/
def mkRef (p : String) (n : Nat) : String := p ++ "e" ++ natToDec n

/-- Embedding of `ariaRef(element, role, name, options)`
(src/src/injected/ariaSnapshot.ts lines 186–201).  Returns `undefined`
unless `options?.forAI`; reuses the cached ref when the cached role and
name both equal the freshly computed ones, otherwise mints
`prefix + "e" + ++lastRef` and overwrites the cache. -/
def ariaRef (st : RefState) (role name : String) (options : Option BuildOptions) :
    Option String × RefState :=
  match options with
  | none => (none, st)
  | some o =>
    if !o.forAI then (none, st)
    else
      let mint : Option String × RefState :=
        let r := mkRef (o.refPref.getD "") (st.lastRef + 1)
        (some r, ⟨st.lastRef + 1, some ⟨role, name, r⟩⟩)
      match st.cache with
      | none => mint
      | some a =>
        if a.role ≠ role ∨ a.name ≠ name then mint
        else (some a.ref, st)

lemma mkRef_inj_counter {p : String} {m n : Nat} (h : mkRef p m = mkRef p n) :
    m = n := by
  have hd : (mkRef p m).data = (mkRef p n).data := congrArg String.data h
  have hm : (mkRef p m).data = p.data ++ 'e' :: natToDecL m := by
    simp [mkRef, natToDec, String.singleton]
  have hn : (mkRef p n).data = p.data ++ 'e' :: natToDecL n := by
    simp [mkRef, natToDec, String.singleton]
  rw [hm, hn] at hd
  have := List.append_cancel_left hd
  exact natToDecL_injective (by injection this)

/-- The cache is absent or disagrees with the freshly computed identity. -/
def cacheMiss (c : Option AriaRef) (role name : String) : Prop :=
  c = none ∨ ∃ a, c = some a ∧ (a.role ≠ role ∨ a.name ≠ name)

instance (c : Option AriaRef) (role name : String) :
    Decidable (cacheMiss c role name) := by
  unfold cacheMiss; infer_instance

lemma ariaRef_hit {c : Nat} {a : AriaRef} {o : BuildOptions}
    (hAI : o.forAI = true) {role name : String}
    (hr : a.role = role) (hn : a.name = name) :
    ariaRef ⟨c, some a⟩ role name (some o) = (some a.ref, ⟨c, some a⟩) := by
  simp [ariaRef, hAI, hr, hn]

lemma ariaRef_miss {st : RefState} {o : BuildOptions} (hAI : o.forAI = true)
    {role name : String} (h : cacheMiss st.cache role name) :
    ariaRef st role name (some o) =
      (some (mkRef (o.refPref.getD "") (st.lastRef + 1)),
       ⟨st.lastRef + 1,
        some ⟨role, name, mkRef (o.refPref.getD "") (st.lastRef + 1)⟩⟩) := by
  rcases st with ⟨c, cache⟩
  rcases h with h | ⟨a, ha, hd⟩
  · simp at h
    simp [ariaRef, hAI, h]
  · simp at ha
    subst ha
    simp [ariaRef, hAI, hd]

lemma ariaRef_cache_after {st st' : RefState} {o : BuildOptions}
    (hAI : o.forAI = true) {role name : String} {r : String}
    (h : ariaRef st role name (some o) = (some r, st')) :
    st'.cache = some ⟨role, name, r⟩ := by
  rcases st with ⟨c, cache⟩
  match cache with
  | none =>
    simp [ariaRef, hAI] at h
    rw [← h.1, ← h.2]
  | some a =>
    by_cases hd : a.role ≠ role ∨ a.name ≠ name
    · simp [ariaRef, hAI, hd] at h
      rw [← h.1, ← h.2]
    · push_neg at hd
      simp [ariaRef, hAI, hd.1, hd.2] at h
      rw [← h.2, ← h.1, ← hd.1, ← hd.2]

/-- C1.  Behaviour of the reference assigner `ariaRef`:
1. minting enabled and cached (role, name) equal to the computed ones —
   the cached ref is returned and the state is unchanged;
2. cache absent or role/name changed — the ref `prefix + "e" + (lastRef+1)`
   is minted and the cache overwritten with the new triple;
3. stability — a second build that computes the same (role, name) for the
   element returns the same reference;
4. churn — if the first build minted a reference and the second build
   computes a different accessible name (the counter having only grown in
   between), the second reference differs from the first. -/
theorem C1_ariaRef_stability_churn :
    (∀ (c : Nat) (a : AriaRef) (o : BuildOptions) (role name : String),
      o.forAI = true → a.role = role → a.name = name →
      ariaRef ⟨c, some a⟩ role name (some o) = (some a.ref, ⟨c, some a⟩)) ∧
    (∀ (st : RefState) (o : BuildOptions) (role name : String),
      o.forAI = true → cacheMiss st.cache role name →
      ariaRef st role name (some o) =
        (some (mkRef (o.refPref.getD "") (st.lastRef + 1)),
         ⟨st.lastRef + 1,
          some ⟨role, name, mkRef (o.refPref.getD "") (st.lastRef + 1)⟩⟩)) ∧
    (∀ (st st' : RefState) (o o₂ : BuildOptions) (role name r : String)
      (c₂ : Nat),
      o.forAI = true → o₂.forAI = true →
      ariaRef st role name (some o) = (some r, st') →
      ariaRef ⟨c₂, st'.cache⟩ role name (some o₂) =
        (some r, ⟨c₂, st'.cache⟩)) ∧
    (∀ (c₀ c₁ : Nat) (cache₀ : Option AriaRef) (o : BuildOptions)
      (role name₁ name₂ r₁ : String) (st₁ : RefState),
      o.forAI = true → cacheMiss cache₀ role name₁ →
      ariaRef ⟨c₀, cache₀⟩ role name₁ (some o) = (some r₁, st₁) →
      name₂ ≠ name₁ → c₀ + 1 ≤ c₁ →
      (ariaRef ⟨c₁, st₁.cache⟩ role name₂ (some o)).1.get! ≠ r₁) := by
  refine ⟨?_, ?_, ?_, ?_⟩
  · intro c a o role name hAI hr hn
    exact ariaRef_hit hAI hr hn
  · intro st o role name hAI h
    exact ariaRef_miss hAI h
  · intro st st' o o₂ role name r c₂ hAI hAI₂ h
    have hc := ariaRef_cache_after hAI h
    rw [hc]
    exact ariaRef_hit hAI₂ rfl rfl
  · intro c₀ c₁ cache₀ o role name₁ name₂ r₁ st₁ hAI hmiss h hne hc
    have hm := @ariaRef_miss ⟨c₀, cache₀⟩ o hAI role name₁ hmiss
    have hEq := hm.symm.trans h
    have hr₁ : r₁ = mkRef (o.refPref.getD "") (c₀ + 1) := by
      have := congrArg Prod.fst hEq
      simpa using this.symm
    have hcache : st₁.cache = some ⟨role, name₁, r₁⟩ :=
      ariaRef_cache_after hAI h
    have hmiss₂ : cacheMiss st₁.cache role name₂ := by
      rw [hcache]
      exact Or.inr ⟨_, rfl, Or.inr (by simpa using fun hx => hne hx.symm)⟩
    have h₂ := @ariaRef_miss ⟨c₁, st₁.cache⟩ o hAI role name₂ hmiss₂
    rw [h₂]
    simp only [Option.get!]
    intro hEq
    have := mkRef_inj_counter (hr₁ ▸ hEq)
    omega

/-- Witness for C1 at concrete inputs: a first build on an uncached element
(counter 3) mints ref "e4"; a rebuild with the same role and name returns
"e4" again; a rebuild with a changed name returns a different ref. -/
theorem C1_ariaRef_stability_churn_witness :
    ariaRef ⟨3, none⟩ "button" "Save" (some ⟨true, none⟩) =
      (some "e4", ⟨4, some ⟨"button", "Save", "e4"⟩⟩) ∧
    ariaRef ⟨7, some ⟨"button", "Save", "e4"⟩⟩ "button" "Save"
      (some ⟨true, none⟩) =
      (some "e4", ⟨7, some ⟨"button", "Save", "e4"⟩⟩) ∧
    (ariaRef ⟨7, some ⟨"button", "Save", "e4"⟩⟩ "button" "Submit"
      (some ⟨true, none⟩)).1.get! ≠ "e4" := by
  obtain ⟨h1, h2, h3, h4⟩ := C1_ariaRef_stability_churn
  have hm : cacheMiss (none : Option AriaRef) "button" "Save" := Or.inl rfl
  have hfirst := h2 ⟨3, none⟩ ⟨true, none⟩ "button" "Save" rfl hm
  have h4dec : natToDecL 4 = ['4'] := by
    rw [natToDecL, dif_pos (by omega)]
    rfl
  have hmk : mkRef "" 4 = "e4" := by
    simp only [mkRef, natToDec, h4dec]
    rfl
  have hfirst' : ariaRef ⟨3, none⟩ "button" "Save" (some ⟨true, none⟩) =
      (some "e4", ⟨4, some ⟨"button", "Save", "e4"⟩⟩) := by
    simpa [hmk] using hfirst
  refine ⟨hfirst', ?_, ?_⟩
  · exact h1 7 ⟨"button", "Save", "e4"⟩ ⟨true, none⟩ "button" "Save"
      rfl rfl rfl
  · have := h4 3 7 none ⟨true, none⟩ "button" "Save" "Submit" "e4"
      ⟨4, some ⟨"button", "Save", "e4"⟩⟩ rfl hm hfirst'
      (by decide) (by omega)
    simpa using this

/-! ## Memory Synchronizer diff (src/src/eye.ts, `syncA11yMemoryFromTree`)

The diff itself (lines 60–67 and 385–393 of src/src/eye.ts; identical in
both revisions of the file): `needsToBeAddedMemories` keeps the current
descriptions whose (role, content) matches no previous record, and
`needsToBeDeletedMemories` keeps the previous records whose (role, content)
matches no current description. -/

/-- A current description `{role, content}` flattened from the tree. -/
structure MemDesc where
  role : String
  content : String
  deriving DecidableEq, Repr

/-- A previous record `{role, content, id}` held by the external store. -/
structure MemRecord where
  role : String
  content : String
  id : String
  deriving DecidableEq, Repr

/-- `ariaMemories.filter(({content, role}) => !results.some((m) =>
content === m.content && role === m.role))` — the `toAdd` set. -/
def needsToBeAddedMemories (ariaMemories : List MemDesc)
    (results : List MemRecord) : List MemDesc :=
  ariaMemories.filter fun d =>
    !(results.any fun m => d.content == m.content && d.role == m.role)

/-- `results.filter(({content, role}) => !ariaMemories.some((m) =>
m.content === content && m.role === role))` — the `toDelete` set. -/
def needsToBeDeletedMemories (results : List MemRecord)
    (ariaMemories : List MemDesc) : List MemRecord :=
  results.filter fun r =>
    !(ariaMemories.any fun m => m.content == r.content && m.role == r.role)

/-- C2.  The memory diff: `toAdd` is exactly the current descriptions whose
(role, content) matches no previous record; `toDelete` is exactly the
previous records matching no current description; a pair present on both
sides is in neither list; and diffing a description set against records
covering exactly the same (role, content) pairs yields two empty lists. -/
theorem C2_sync_diff (cur : List MemDesc) (prev : List MemRecord) :
    (∀ d : MemDesc, d ∈ needsToBeAddedMemories cur prev ↔
      d ∈ cur ∧ ∀ r ∈ prev, ¬(d.content = r.content ∧ d.role = r.role)) ∧
    (∀ r : MemRecord, r ∈ needsToBeDeletedMemories prev cur ↔
      r ∈ prev ∧ ∀ d ∈ cur, ¬(d.content = r.content ∧ d.role = r.role)) ∧
    (∀ d ∈ cur, ∀ r ∈ prev, d.content = r.content → d.role = r.role →
      d ∉ needsToBeAddedMemories cur prev ∧
      r ∉ needsToBeDeletedMemories prev cur) ∧
    ((∀ d ∈ cur, ∃ r ∈ prev, d.content = r.content ∧ d.role = r.role) →
     (∀ r ∈ prev, ∃ d ∈ cur, d.content = r.content ∧ d.role = r.role) →
      needsToBeAddedMemories cur prev = [] ∧
      needsToBeDeletedMemories prev cur = []) := by
  have hadd : ∀ d : MemDesc, d ∈ needsToBeAddedMemories cur prev ↔
      d ∈ cur ∧ ∀ r ∈ prev, ¬(d.content = r.content ∧ d.role = r.role) := by
    intro d
    simp only [needsToBeAddedMemories, List.mem_filter, Bool.not_eq_true',
      List.any_eq_false, Bool.and_eq_true, beq_iff_eq, not_and]
  have hdel : ∀ r : MemRecord, r ∈ needsToBeDeletedMemories prev cur ↔
      r ∈ prev ∧ ∀ d ∈ cur, ¬(d.content = r.content ∧ d.role = r.role) := by
    intro r
    simp only [needsToBeDeletedMemories, List.mem_filter, Bool.not_eq_true',
      List.any_eq_false, Bool.and_eq_true, beq_iff_eq, not_and]
  refine ⟨hadd, hdel, ?_, ?_⟩
  · intro d hd r hr hcontent hrole
    constructor
    · intro hmem
      exact ((hadd d).1 hmem).2 r hr ⟨hcontent, hrole⟩
    · intro hmem
      exact ((hdel r).1 hmem).2 d hd ⟨hcontent, hrole⟩
  · intro hcur hprev
    constructor
    · rw [List.eq_nil_iff_forall_not_mem]
      intro d hmem
      obtain ⟨hd, hall⟩ := (hadd d).1 hmem
      obtain ⟨r, hr, hcd⟩ := hcur d hd
      exact hall r hr hcd
    · rw [List.eq_nil_iff_forall_not_mem]
      intro r hmem
      obtain ⟨hr, hall⟩ := (hdel r).1 hmem
      obtain ⟨d, hd, hcd⟩ := hprev r hr
      exact hall d hd hcd

/-- Witness for C2 at concrete inputs: previous = {A, B, C}, current =
{A, B', D} (B renamed) gives toAdd = [B', D], toDelete = [B, C]; and an
unchanged set diffs to two empty lists. -/
theorem C2_sync_diff_witness :
    needsToBeAddedMemories
      [⟨"user", "A"⟩, ⟨"user", "B2"⟩, ⟨"user", "D"⟩]
      [⟨"user", "A", "i1"⟩, ⟨"user", "B", "i2"⟩, ⟨"user", "C", "i3"⟩] =
      [⟨"user", "B2"⟩, ⟨"user", "D"⟩] ∧
    needsToBeDeletedMemories
      [⟨"user", "A", "i1"⟩, ⟨"user", "B", "i2"⟩, ⟨"user", "C", "i3"⟩]
      [⟨"user", "A"⟩, ⟨"user", "B2"⟩, ⟨"user", "D"⟩] =
      [⟨"user", "B", "i2"⟩, ⟨"user", "C", "i3"⟩] ∧
    needsToBeAddedMemories [⟨"user", "A"⟩] [⟨"user", "A", "i1"⟩] = [] ∧
    needsToBeDeletedMemories [⟨"user", "A", "i1"⟩] [⟨"user", "A"⟩] = [] := by
  have h := C2_sync_diff [⟨"user", "A"⟩] [⟨"user", "A", "i1"⟩]
  obtain ⟨-, -, -, hid⟩ := h
  have hempty := hid (by decide) (by decide)
  exact ⟨by decide, by decide, hempty.1, hempty.2⟩

/-! ## Similarity gate of `look` (src/src/eye.ts)

The second revision of `look` (src/src/eye.ts lines 445–471) runs

  const element = results?.[0];
  if (element?.score! < similarityThreshold) { return Promise.reject(...) }
  ...proceeds to parsePrompt / a11yRefSelect with element

Scores are embedded as rationals.  When `results` is empty, `element` is
`undefined` and the JavaScript comparison `undefined < t` evaluates to
`false`, so the rejection branch is NOT taken and the code proceeds to
reference resolution with an undefined element.  (The first revision,
lines 118–145, reads `element.score` and throws a TypeError on an empty
result list — also not the described resolution failure.)  `lookGate`
embeds the gate up to the branch taken. -/

/-- One ranked result of the external semantic store. -/
structure SearchResult where
  score : ℚ
  memory : String
  deriving DecidableEq, Repr

/-- Outcome of the similarity gate inside `look`: either the rejection
(carrying the query text, the top score if any, the threshold and the
leading candidates), or proceeding to reference resolution with the top
element (possibly `undefined`). -/
inductive LookOutcome where
  | reject (query : String) (score : Option ℚ) (threshold : ℚ)
      (results : List SearchResult)
  | proceed (element : Option SearchResult)
  deriving DecidableEq, Repr

/-- The gate of `look(target, similarityThreshold)`: the branch on
`element?.score! < similarityThreshold` (src/src/eye.ts lines 454–463).
`undefined < t` is `false` in JavaScript, hence the `none` arm. -/
def lookGate (target : String) (similarityThreshold : ℚ)
    (results : List SearchResult) : LookOutcome :=
  let element := results.head?
  let cond : Bool :=
    match element with
    | some e => decide (e.score < similarityThreshold)
    | none => false
  if cond then
    LookOutcome.reject target (element.map (·.score)) similarityThreshold
      (results.take 10)
  else
    LookOutcome.proceed element

/-- Counterexample to C3: with an empty result list and threshold 0.8,
`look` does not fail the similarity gate — the JavaScript comparison
`undefined < 0.8` is false — and instead proceeds to reference resolution
with an undefined element, contrary to the claim that an absent candidate
yields a resolution failure carrying query, score, threshold and
candidates. -/
theorem C3_look_gate_counterexample :
    lookGate "login button" (4/5) [] = LookOutcome.proceed none := by
  rfl

/-- C3 (amended).  If the search returns at least one candidate and the top
candidate's score is strictly below the threshold, `look` rejects with the
query text, that score, the threshold and the leading candidates; if the
top score meets the threshold it proceeds to reference resolution with the
top candidate; if the search returns no candidate the gate does not fire
and `look` proceeds with an undefined element. -/
theorem C3_look_gate_amended (target : String) (t : ℚ)
    (results : List SearchResult) (e : SearchResult) :
    (results.head? = some e → e.score < t →
      lookGate target t results =
        LookOutcome.reject target (some e.score) t (results.take 10)) ∧
    (results.head? = some e → t ≤ e.score →
      lookGate target t results = LookOutcome.proceed (some e)) ∧
    (results.head? = none →
      lookGate target t results = LookOutcome.proceed none) := by
  refine ⟨?_, ?_, ?_⟩
  · intro hh hlt
    simp [lookGate, hh, hlt]
  · intro hh hge
    simp [lookGate, hh, not_lt.mpr hge]
  · intro hh
    simp [lookGate, hh]

/-- Witness for C3 (amended) at concrete inputs: a top score of 0.79
against threshold 0.8 rejects with score 0.79, threshold 0.8 and the
candidate list; a top score of 0.9 passes the gate. -/
theorem C3_look_gate_amended_witness :
    lookGate "save" (4/5) [⟨79/100, "m1"⟩] =
      LookOutcome.reject "save" (some (79/100)) (4/5) [⟨79/100, "m1"⟩] ∧
    lookGate "save" (4/5) [⟨9/10, "m1"⟩] =
      LookOutcome.proceed (some ⟨9/10, "m1"⟩) := by
  constructor
  · exact (C3_look_gate_amended "save" (4/5) [⟨79/100, "m1"⟩]
      ⟨79/100, "m1"⟩).1 rfl (by norm_num)
  · exact (C3_look_gate_amended "save" (4/5) [⟨9/10, "m1"⟩]
      ⟨9/10, "m1"⟩).2.1 rfl (by norm_num)

/-! ## The accessibility tree node type (src/src/injected/ariaSnapshot.ts)

`AriaNode` of the source: role, name, optional ref, state fields
(`AriaProps`), a properties map, the backing element, its box and
pointer-event reachability, and an ordered child list mixing nested nodes
and literal text runs.  The backing DOM element is embedded as an opaque
numeric identity. -/

/-- A `boolean | "mixed"` value (checked / pressed states). -/
inductive MixedBool where
  | tt
  | ff
  | mixed
  deriving DecidableEq, Repr

/-- The geometry box of a node: visibility and whether the computed cursor
style is "pointer" (`box.style?.cursor === "pointer"`). -/
structure Box where
  visible : Bool
  cursorPointer : Bool
  deriving DecidableEq, Repr

/-- The non-recursive fields of an `AriaNode`. -/
structure AriaFields where
  role : String := ""
  name : String := ""
  ref : Option String := none
  checked : Option MixedBool := none
  disabled : Option Bool := none
  expanded : Option Bool := none
  level : Option Nat := none
  pressed : Option MixedBool := none
  selected : Option Bool := none
  clickable : Option Bool := none
  props : List (String × String) := []
  element : Nat := 0
  box : Box := ⟨true, false⟩
  receivesPointerEvents : Bool := true
  deriving DecidableEq, Repr

mutual
/-- An `AriaNode`: its fields and its ordered children. -/
inductive AriaNode where
  | mk (fields : AriaFields) (children : List AriaChild)

/-- A child of an `AriaNode`: a nested node or a literal text run
(`AriaNode | string` in the source). -/
inductive AriaChild where
  | elem (n : AriaNode)
  | text (s : String)
end

/-- Fields accessor. -/
def AriaNode.fields : AriaNode → AriaFields
  | .mk f _ => f

/-- Children accessor. -/
def AriaNode.children : AriaNode → List AriaChild
  | .mk _ c => c

/-- Lookup of `node.props["url"]` (absent entries are `undefined`). -/
def AriaNode.propsUrl (n : AriaNode) : Option String :=
  (n.fields.props.find? fun p => p.1 == "url").map (·.2)

/-- `receivesPointerEvents(ariaNode)` of the source (lines 960–962):
the box is visible and the node receives pointer events. -/
def nodeReceivesPointerEvents (n : AriaNode) : Bool :=
  n.fields.box.visible && n.fields.receivesPointerEvents

/-! ## Template matcher (src/src/injected/ariaSnapshot.ts lines 349–461)

Templates are text matchers or role matchers with nested children and a
containment mode.  A regex template is embedded as an oracle test function
(the RegExp engine is external). -/

/-- `AriaRegex | string`: a string matcher or a regex matcher. -/
inductive TPat where
  | str (s : String)
  | regex (test : String → Bool)

/-- Containment mode of a role template. -/
inductive CMode where
  | contain
  | equal
  | deepEqual
  deriving DecidableEq, Repr

/-- `AriaTemplateNode`: a text template or a role template with optional
state constraints, name/url patterns, a containment mode, and children. -/
inductive Tmpl where
  | text (tx : Option TPat)
  | role (role : String) (checked : Option MixedBool) (disabled : Option Bool)
      (expanded : Option Bool) (level : Option Nat) (pressed : Option MixedBool)
      (selected : Option Bool) (name : Option TPat) (url : Option TPat)
      (containerMode : Option CMode) (children : List Tmpl)

/-- `matchesText(text, template)` (lines 349–357): an absent or empty
(falsy) template matches everything; a non-empty template never matches
empty (falsy) text; a string template requires equality; a regex template
applies the pattern. -/
def matchesText (text : String) (template : Option TPat) : Bool :=
  match template with
  | none => true
  | some (.str "") => true
  | some (.str s) => if text = "" then false else text == s
  | some (.regex f) => if text = "" then false else f text

/-- The early-return role/state/name/url checks of `matchesNode`
(lines 407–421), as one conjunction. -/
def rolePrechecks (n : AriaNode) (role : String) (checked : Option MixedBool)
    (disabled : Option Bool) (expanded : Option Bool) (level : Option Nat)
    (pressed : Option MixedBool) (selected : Option Bool)
    (name : Option TPat) (url : Option TPat) : Bool :=
  !(role ≠ "fragment" && role ≠ n.fields.role) &&
  !(checked.isSome && checked ≠ n.fields.checked) &&
  !(disabled.isSome && disabled ≠ n.fields.disabled) &&
  !(expanded.isSome && expanded ≠ n.fields.expanded) &&
  !(level.isSome && level ≠ n.fields.level) &&
  !(pressed.isSome && pressed ≠ n.fields.pressed) &&
  !(selected.isSome && selected ≠ n.fields.selected) &&
  matchesText n.fields.name name &&
  matchesText (n.propsUrl.getD "") url

/-- JavaScript truthiness of a shifted child in the `while (c)` loop of
`containsList` (lines 452–459): an `AriaNode` is an object and always
truthy; a string child is falsy exactly when it is the empty string. -/
def childFalsy : AriaChild → Bool
  | .text s => s == ""
  | .elem _ => false

mutual
/-- `matchesNode(node, template, isDeepEqual)` (lines 396–431).  Note the
dispatch order on the containment mode: an explicit `contain` or `equal`
mode on the template is honoured BEFORE the `deep-equal || isDeepEqual`
test. -/
def matchesNode (node : AriaChild) (template : Tmpl) (isDeepEqual : Bool) :
    Bool :=
  match node, template with
  | .text s, .text tx => matchesText s tx
  | .text _, .role .. => false
  | .elem _, .text _ => false
  | .elem n, .role role checked disabled expanded level pressed selected
      name url containerMode tchildren =>
    if !rolePrechecks n role checked disabled expanded level pressed
        selected name url then false
    else if containerMode = some CMode.contain then
      containsList n.children tchildren
    else if containerMode = some CMode.equal then
      listEqual n.children tchildren false
    else if containerMode = some CMode.deepEqual || isDeepEqual then
      listEqual n.children tchildren true
    else
      containsList n.children tchildren
  termination_by (sizeOf template, 0, 0)

/-- `listEqual(children, template, isDeepEqual)` (lines 433–443): both
lists must have the same length and corresponding entries must match
pairwise in order. -/
def listEqual (children : List AriaChild) (template : List Tmpl)
    (isDeepEqual : Bool) : Bool :=
  if template.length ≠ children.length then false
  else
    match children, template with
    | [], _ => true
    | _, [] => true
    | c :: cs, t :: ts =>
      matchesNode c t isDeepEqual && listEqual cs ts isDeepEqual
  termination_by (sizeOf template, sizeOf children, 0)

/-- `containsList(children, template)` (lines 445–461): length guard, then
the greedy shift loop `containsGo`. -/
def containsList (children : List AriaChild) (template : List Tmpl) : Bool :=
  if template.length > children.length then false
  else containsGo children template
  termination_by (sizeOf template, sizeOf children, 1)

/-- The greedy loop of `containsList` (`let c = cc.shift(); while (c) {
if (matchesNode(c, t, false)) break; c = cc.shift(); } if (!c) return
false;`, lines 452–459): each shifted child is tested for truthiness by
the `while` condition BEFORE being matched, so shifting a falsy child — an
empty-string text run — exits the loop and `if (!c) return false` fails
the whole containment exactly as exhaustion does; a truthy child either
matches the current template (continue with the next template) or is
discarded. -/
def containsGo (children : List AriaChild) (template : List Tmpl) : Bool :=
  match template with
  | [] => true
  | t :: tt =>
    match children with
    | [] => false
    | c :: cc =>
      if childFalsy c then false
      else if matchesNode c t false then containsGo cc tt
      else containsGo cc (t :: tt)
  termination_by (sizeOf template, sizeOf children, 0)
end

/-! ### Unfolding and characterization lemmas for the matcher -/

lemma matchesNode_role_eq (n : AriaNode) (role : String)
    (checked : Option MixedBool) (disabled expanded : Option Bool)
    (level : Option Nat) (pressed : Option MixedBool) (selected : Option Bool)
    (name url : Option TPat) (cmode : Option CMode) (tchildren : List Tmpl)
    (d : Bool) :
    matchesNode (.elem n) (.role role checked disabled expanded level pressed
        selected name url cmode tchildren) d =
      if !rolePrechecks n role checked disabled expanded level pressed
          selected name url then false
      else if cmode = some CMode.contain then containsList n.children tchildren
      else if cmode = some CMode.equal then listEqual n.children tchildren false
      else if cmode = some CMode.deepEqual || d then
        listEqual n.children tchildren true
      else containsList n.children tchildren := by
  rw [matchesNode]

lemma containsGo_nil_tmpl (cs : List AriaChild) : containsGo cs [] = true := by
  cases cs <;> rw [containsGo]

lemma containsGo_nil_children (t : Tmpl) (tt : List Tmpl) :
    containsGo [] (t :: tt) = false := by
  rw [containsGo]

lemma containsGo_cons (c : AriaChild) (cc : List AriaChild) (t : Tmpl)
    (tt : List Tmpl) :
    containsGo (c :: cc) (t :: tt) =
      if childFalsy c then false
      else if matchesNode c t false then containsGo cc tt
      else containsGo cc (t :: tt) := by
  rw [containsGo]

lemma containsGo_le : ∀ (cs : List AriaChild) (ts : List Tmpl),
    containsGo cs ts = true → ts.length ≤ cs.length := by
  intro cs
  induction cs with
  | nil =>
    intro ts h
    cases ts with
    | nil => simp
    | cons t tt => rw [containsGo_nil_children] at h; exact absurd h (by simp)
  | cons c cc ih =>
    intro ts h
    cases ts with
    | nil => simp
    | cons t tt =>
      rw [containsGo_cons] at h
      by_cases hcf : childFalsy c = true
      · rw [if_pos hcf] at h
        exact absurd h (by simp)
      · rw [if_neg hcf] at h
        by_cases hm : matchesNode c t false = true
        · rw [if_pos hm] at h
          have := ih tt h
          simp only [List.length_cons]
          omega
        · rw [if_neg (by simpa using hm)] at h
          have := ih (t :: tt) h
          simp only [List.length_cons] at this ⊢
          omega

lemma containsGo_sound : ∀ (cs : List AriaChild) (ts : List Tmpl),
    containsGo cs ts = true →
    ∃ sub : List AriaChild, List.Sublist sub cs ∧
      List.Forall₂ (fun c t => matchesNode c t false = true) sub ts := by
  intro cs
  induction cs with
  | nil =>
    intro ts h
    cases ts with
    | nil => exact ⟨[], List.Sublist.refl _, List.Forall₂.nil⟩
    | cons t tt => rw [containsGo_nil_children] at h; exact absurd h (by simp)
  | cons c cc ih =>
    intro ts h
    cases ts with
    | nil => exact ⟨[], List.nil_sublist _, List.Forall₂.nil⟩
    | cons t tt =>
      rw [containsGo_cons] at h
      by_cases hcf : childFalsy c = true
      · rw [if_pos hcf] at h
        exact absurd h (by simp)
      · rw [if_neg hcf] at h
        by_cases hm : matchesNode c t false = true
        · rw [if_pos hm] at h
          obtain ⟨sub, hsub, hf⟩ := ih tt h
          exact ⟨c :: sub, hsub.cons₂ c, List.Forall₂.cons hm hf⟩
        · rw [if_neg (by simpa using hm)] at h
          obtain ⟨sub, hsub, hf⟩ := ih (t :: tt) h
          exact ⟨sub, hsub.cons c, hf⟩

lemma containsGo_complete : ∀ (cs sub : List AriaChild) (ts : List Tmpl),
    (∀ c ∈ cs, childFalsy c = false) →
    List.Sublist sub cs →
    List.Forall₂ (fun c t => matchesNode c t false = true) sub ts →
    containsGo cs ts = true := by
  intro cs
  induction cs with
  | nil =>
    intro sub ts _ hsub hf
    have hs : sub = [] := List.sublist_nil.mp hsub
    subst hs
    cases hf
    exact containsGo_nil_tmpl []
  | cons c cc ih =>
    intro sub ts hfal hsub hf
    have hc : childFalsy c = false := hfal c (List.mem_cons_self c cc)
    have hcc : ∀ x ∈ cc, childFalsy x = false :=
      fun x hx => hfal x (List.mem_cons_of_mem c hx)
    cases ts with
    | nil => exact containsGo_nil_tmpl _
    | cons t tt =>
      cases hf with
      | cons ha hrest =>
        rename_i a l₁
        rw [containsGo_cons, if_neg (by simp [hc])]
        cases hsub with
        | cons _ htail =>
          by_cases hm : matchesNode c t false = true
          · rw [if_pos hm]
            have hl₁ : List.Sublist l₁ cc :=
              List.Sublist.trans (List.sublist_cons_self a l₁) htail
            exact ih l₁ tt hcc hl₁ hrest
          · rw [if_neg (by simpa using hm)]
            exact ih (a :: l₁) (t :: tt) hcc htail (List.Forall₂.cons ha hrest)
        | cons₂ _ htail =>
          rw [if_pos ha]
          exact ih l₁ tt hcc htail hrest

lemma containsList_sound (cs : List AriaChild) (ts : List Tmpl) :
    containsList cs ts = true →
      ∃ sub : List AriaChild, List.Sublist sub cs ∧
        List.Forall₂ (fun c t => matchesNode c t false = true) sub ts := by
  rw [containsList]
  intro h
  by_cases hlen : ts.length > cs.length
  · rw [if_pos hlen] at h
    exact absurd h (by simp)
  · rw [if_neg hlen] at h
    exact containsGo_sound cs ts h

lemma containsList_iff (cs : List AriaChild) (ts : List Tmpl)
    (hfal : ∀ c ∈ cs, childFalsy c = false) :
    containsList cs ts = true ↔
      ∃ sub : List AriaChild, List.Sublist sub cs ∧
        List.Forall₂ (fun c t => matchesNode c t false = true) sub ts := by
  constructor
  · exact containsList_sound cs ts
  · rintro ⟨sub, hsub, hf⟩
    have h1 : sub.length = ts.length := hf.length_eq
    have h2 : sub.length ≤ cs.length := hsub.length_le
    rw [containsList, if_neg (by omega)]
    exact containsGo_complete cs sub ts hfal hsub hf

lemma listEqual_iff : ∀ (cs : List AriaChild) (ts : List Tmpl) (d : Bool),
    listEqual cs ts d = true ↔
      ts.length = cs.length ∧
        List.Forall₂ (fun c t => matchesNode c t d = true) cs ts := by
  intro cs
  induction cs with
  | nil =>
    intro ts d
    cases ts with
    | nil => rw [listEqual]; simp
    | cons t tt => rw [listEqual]; simp
  | cons c cc ih =>
    intro ts d
    cases ts with
    | nil =>
      rw [listEqual]
      simp
      exact fun h => by simp at h
    | cons t tt =>
      rw [listEqual]
      by_cases hlen : tt.length = cc.length
      · rw [if_neg (by simp [hlen])]
        simp only [Bool.and_eq_true, List.forall₂_cons]
        rw [ih tt d]
        constructor
        · rintro ⟨hm, -, hf⟩
          exact ⟨by simp [hlen], hm, hf⟩
        · rintro ⟨-, hm, hf⟩
          exact ⟨hm, hlen, hf⟩
      · rw [if_pos (by simp [hlen])]
        constructor
        · intro h
          exact absurd h (by simp)
        · rintro ⟨hl, -⟩
          simp only [List.length_cons] at hl
          omega

/-! ### Concrete nodes and templates used by matcher witnesses -/

/-- A concrete button node. -/
def sBtn : AriaNode := .mk { role := "button", name := "OK" } []

/-- A concrete link node. -/
def sLink : AriaNode := .mk { role := "link" } []

/-- A role template matching any button. -/
def sTmplBtn : Tmpl := .role "button" none none none none none none none none
  none []

/-- A list item with two element children (used by the C4 counterexample). -/
def sItem : AriaNode := .mk { role := "listitem" } [.elem sBtn, .elem sLink]

/-- A list node wrapping `sItem`. -/
def sList : AriaNode := .mk { role := "list" } [.elem sItem]

/-- An item template with its OWN mode `contain` and one button child. -/
def sTmplItem : Tmpl := .role "listitem" none none none none none none none
  none (some CMode.contain) [sTmplBtn]

/-- A list template in `deep-equal` mode whose child is `sTmplItem`. -/
def sTmplList : Tmpl := .role "list" none none none none none none none none
  (some CMode.deepEqual) [sTmplItem]

/-- Counterexample to C4: under a `deep-equal` parent template, a
descendant template carrying its own `contain` mode is matched by the
greedy containment semantics, not by the strict deep-equal discipline.
Concretely: the list node (one item with two children) matches the
deep-equal list template whose item template has mode `contain` and one
child — yet the strict deep-equal discipline rejects that descendant
(`listEqual` on one template versus two children is false).  The dispatch
of `matchesNode` (src/src/injected/ariaSnapshot.ts lines 423–430) tests the
template's own `contain`/`equal` mode before the `deep-equal || isDeepEqual`
test, so propagation does NOT override a child template's explicit mode. -/
theorem C4_deep_equal_counterexample :
    matchesNode (.elem sList) sTmplList false = true ∧
    matchesNode (.elem sItem) sTmplItem true = true ∧
    listEqual sItem.children [sTmplBtn] true = false := by
  refine ⟨?_, ?_, ?_⟩ <;>
    simp [matchesNode, listEqual, containsList, containsGo, childFalsy,
      rolePrechecks, matchesText, AriaNode.children, AriaNode.fields,
      AriaNode.propsUrl, sList, sItem, sBtn, sLink, sTmplList, sTmplItem,
      sTmplBtn]

/-- C4 (amended).  `deep-equal` is `equal` propagated strictly to those
descendant templates that do NOT specify their own containment mode: for a
role template whose other checks pass, an explicit `contain` or `equal`
mode is honoured regardless of the propagated strictness flag, an explicit
`deep-equal` mode matches strictly, and an unspecified mode matches
strictly exactly when strictness has been propagated (`isDeepEqual`,
which `listEqual` passes down to every child). -/
theorem C4_deep_equal_amended (n : AriaNode) (role : String)
    (checked : Option MixedBool) (disabled expanded : Option Bool)
    (level : Option Nat) (pressed : Option MixedBool) (selected : Option Bool)
    (name url : Option TPat) (tchildren : List Tmpl) (d : Bool)
    (hpre : rolePrechecks n role checked disabled expanded level pressed
      selected name url = true) :
    (matchesNode (.elem n) (.role role checked disabled expanded level pressed
      selected name url (some CMode.contain) tchildren) d =
      containsList n.children tchildren) ∧
    (matchesNode (.elem n) (.role role checked disabled expanded level pressed
      selected name url (some CMode.equal) tchildren) d =
      listEqual n.children tchildren false) ∧
    (matchesNode (.elem n) (.role role checked disabled expanded level pressed
      selected name url (some CMode.deepEqual) tchildren) d =
      listEqual n.children tchildren true) ∧
    (matchesNode (.elem n) (.role role checked disabled expanded level pressed
      selected name url none tchildren) true =
      listEqual n.children tchildren true) := by
  refine ⟨?_, ?_, ?_, ?_⟩ <;>
    rw [matchesNode_role_eq] <;> simp [hpre]

/-- Witness for C4 (amended) at a concrete input: for the item node with
two children and a one-child item template whose own mode is `contain`,
the dispatch under propagated strictness is still the greedy containment
(and it succeeds), while an explicit `deep-equal` mode would dispatch to
the strict list equality. -/
theorem C4_deep_equal_amended_witness :
    matchesNode (.elem sItem) sTmplItem true =
      containsList sItem.children [sTmplBtn] ∧
    containsList sItem.children [sTmplBtn] = true := by
  have hpre : rolePrechecks sItem "listitem" none none none none none none
      none none = true := by
    simp [rolePrechecks, matchesText, sItem, AriaNode.fields, AriaNode.propsUrl]
  have h := C4_deep_equal_amended sItem "listitem" none none none none none
    none none none [sTmplBtn] true hpre
  refine ⟨h.1, ?_⟩
  simp [containsList, containsGo, childFalsy, matchesNode, rolePrechecks,
    matchesText, AriaNode.children, AriaNode.fields, AriaNode.propsUrl,
    sItem, sBtn, sLink, sTmplBtn]

/-- Counterexample to C5: the iff-subsequence characterization of
`contain` mode is false of the program.  For the child list whose entries
are an empty text run followed by a button, and the one-button template
list, a matching in-order subsequence of the children exists (the button
child matches the button template), yet `containsList` returns false: the
greedy loop tests each shifted child for JavaScript truthiness before
attempting a match (`while (c)`), so shifting the empty-string text
child — falsy — exits the loop and `if (!c) return false` fails the
whole containment (src/src/injected/ariaSnapshot.ts lines 452–459). -/
theorem C5_contain_subsequence_counterexample :
    containsList [.text "", .elem sBtn] [sTmplBtn] = false ∧
    List.Sublist [AriaChild.elem sBtn] [.text "", .elem sBtn] ∧
    List.Forall₂ (fun c t => matchesNode c t false = true)
      [AriaChild.elem sBtn] [sTmplBtn] := by
  refine ⟨?_, ?_, ?_⟩
  · simp [containsList, containsGo, childFalsy]
  · exact List.Sublist.cons _ (List.Sublist.cons₂ _ (List.nil_sublist _))
  · refine List.Forall₂.cons ?_ List.Forall₂.nil
    simp [matchesNode, rolePrechecks, matchesText, containsList, containsGo,
      childFalsy, AriaNode.children, AriaNode.fields, AriaNode.propsUrl,
      sBtn, sTmplBtn]

/-- C5 (amended).  With the role/state/name/url checks passing, `contain`
mode — and the default when no mode is given (at the non-propagated top
level) — dispatches to the greedy `containsList`, and `equal` mode to
`listEqual`, which fails whenever the lengths differ and otherwise
requires corresponding entries to match pairwise in order.  The greedy
scan tests each shifted child for JavaScript truthiness before matching,
so reaching an empty-string text child fails the whole containment
exactly as exhaustion does.  The scan is therefore sound — a successful
containment exhibits the template list matching, in order, a
not-necessarily-contiguous subsequence of the children — and on child
lists free of empty-string text runs (as the string normalizer produces:
it drops empty results) it is also complete: containment holds iff such a
subsequence exists. -/
theorem C5_contain_equal_amended :
    (∀ (n : AriaNode) (role : String) (checked : Option MixedBool)
        (disabled expanded : Option Bool) (level : Option Nat)
        (pressed : Option MixedBool) (selected : Option Bool)
        (name url : Option TPat) (tchildren : List Tmpl),
      rolePrechecks n role checked disabled expanded level pressed selected
          name url = true →
      matchesNode (.elem n) (.role role checked disabled expanded level
          pressed selected name url (some CMode.contain) tchildren) false =
        containsList n.children tchildren ∧
      matchesNode (.elem n) (.role role checked disabled expanded level
          pressed selected name url none tchildren) false =
        containsList n.children tchildren ∧
      matchesNode (.elem n) (.role role checked disabled expanded level
          pressed selected name url (some CMode.equal) tchildren) false =
        listEqual n.children tchildren false) ∧
    (∀ (cs : List AriaChild) (ts : List Tmpl) (d : Bool),
      ts.length ≠ cs.length → listEqual cs ts d = false) ∧
    (∀ (cs : List AriaChild) (ts : List Tmpl) (d : Bool),
      ts.length = cs.length →
      (listEqual cs ts d = true ↔
        List.Forall₂ (fun c t => matchesNode c t d = true) cs ts)) ∧
    (∀ (c : AriaChild) (cc : List AriaChild) (t : Tmpl) (tt : List Tmpl),
      childFalsy c = true → containsGo (c :: cc) (t :: tt) = false) ∧
    (∀ (cs : List AriaChild) (ts : List Tmpl),
      containsList cs ts = true →
        ∃ sub : List AriaChild, List.Sublist sub cs ∧
          List.Forall₂ (fun c t => matchesNode c t false = true) sub ts) ∧
    (∀ (cs : List AriaChild) (ts : List Tmpl),
      (∀ c ∈ cs, childFalsy c = false) →
      (containsList cs ts = true ↔
        ∃ sub : List AriaChild, List.Sublist sub cs ∧
          List.Forall₂ (fun c t => matchesNode c t false = true) sub ts)) := by
  refine ⟨?_, ?_, ?_, ?_, ?_, ?_⟩
  · intro n role checked disabled expanded level pressed selected name url
      tchildren hpre
    refine ⟨?_, ?_, ?_⟩ <;> rw [matchesNode_role_eq] <;> simp [hpre]
  · intro cs ts d hne
    by_contra hc
    rw [Bool.not_eq_false] at hc
    exact hne ((listEqual_iff cs ts d).1 hc).1
  · intro cs ts d hlen
    rw [listEqual_iff]
    simp [hlen]
  · intro c cc t tt hcf
    rw [containsGo_cons, if_pos hcf]
  · intro cs ts
    exact containsList_sound cs ts
  · intro cs ts hfal
    exact containsList_iff cs ts hfal

/-- Witness for C5 (amended) at concrete inputs: a child list holding a
button among non-empty text runs (no falsy child) contains-matches the
one-button template list via the subsequence characterization; a
two-element child list never `equal`-matches a one-element template list;
and the greedy scan fails immediately on an empty-string text child. -/
theorem C5_contain_equal_amended_witness :
    containsList [.text "x", .elem sBtn, .text "y"] [sTmplBtn] = true ∧
    listEqual [.elem sBtn, .elem sLink] [sTmplBtn] false = false ∧
    containsGo [.text "", .elem sBtn] [sTmplBtn] = false := by
  obtain ⟨-, hlen, -, habort, -, hiff⟩ := C5_contain_equal_amended
  refine ⟨?_, ?_, ?_⟩
  · refine (hiff _ _ ?_).2 ⟨[.elem sBtn], ?_, ?_⟩
    · intro c hc
      simp only [List.mem_cons, List.not_mem_nil, or_false] at hc
      rcases hc with rfl | rfl | rfl <;> simp [childFalsy]
    · exact List.Sublist.cons _ (List.Sublist.cons₂ _ (List.nil_sublist _))
    · refine List.Forall₂.cons ?_ List.Forall₂.nil
      simp [matchesNode, rolePrechecks, matchesText, containsList, containsGo,
        childFalsy, AriaNode.children, AriaNode.fields, AriaNode.propsUrl,
        sBtn, sTmplBtn]
  · exact hlen _ _ _ (by simp)
  · exact habort _ _ _ _ (by simp [childFalsy])

/-! ## Tree Normalizer: generic collapse
(src/src/injected/ariaSnapshot.ts, `normalizeGenericRoles`, lines 290–313)

The inner `normalizeChildren` returns the normalized child contribution of
a node: a generic node whose normalized children number at most one, all of
which are pointer-reachable element nodes, is dropped and its normalized
children are spliced into the parent at its position; any other node is
kept with its normalized children. -/

/-- `typeof c !== "string" && receivesPointerEvents(c)` — the per-child
condition of the `removeSelf` test. -/
def childIsPointerElem (c : AriaChild) : Bool :=
  match c with
  | .text _ => false
  | .elem m => nodeReceivesPointerEvents m

mutual
/-- `normalizeChildren(node)` of the source: the list this node contributes
to its parent after normalization. -/
def normChildren (n : AriaNode) : List AriaChild :=
  match n with
  | .mk f children =>
    let result := normList children
    let removeSelf := f.role == "generic" && decide (result.length ≤ 1) &&
      result.all childIsPointerElem
    if removeSelf then result else [.elem (.mk f result)]

/-- The loop over `node.children` inside `normalizeChildren`: strings are
kept, element children are replaced by their (possibly spliced)
normalization. -/
def normList (children : List AriaChild) : List AriaChild :=
  match children with
  | [] => []
  | .text s :: rest => .text s :: normList rest
  | .elem m :: rest => normChildren m ++ normList rest
end

mutual
/-- The state of a node after `normalizeChildren(node)` has run on it:
`normalizeChildren` mutates in place.  When the node is not a removable
generic it assigns `node.children = result`, the spliced normalized list;
when it IS removable it returns `result` to the caller without touching
`node.children`, so the node keeps its ORIGINAL child array — whose
element entries have nevertheless been mutated by the recursive
`normalizeChildren(child)` calls. -/
def inPlaceNode (n : AriaNode) : AriaNode :=
  match n with
  | .mk f children =>
    let result := normList children
    let removeSelf := f.role == "generic" && decide (result.length ≤ 1) &&
      result.all childIsPointerElem
    if removeSelf then .mk f (inPlaceList children) else .mk f result

/-- The original child array after the recursive calls have mutated its
element entries: text runs are untouched, each element child is in the
post-`normalizeChildren(child)` state. -/
def inPlaceList : List AriaChild → List AriaChild
  | [] => []
  | .text s :: rest => .text s :: inPlaceList rest
  | .elem m :: rest => .elem (inPlaceNode m) :: inPlaceList rest
end

/-- `normalizeGenericRoles(node)` — the top-level call.  The source
discards the list returned by `normalizeChildren(node)`; the observable
result is the root object after the in-place mutation, `inPlaceNode`.
The pipeline root always has role "fragment", so there its children are
simply replaced by the normalized list. -/
def normalizeGenericRoles (n : AriaNode) : AriaNode := inPlaceNode n

lemma normList_append : ∀ xs ys : List AriaChild,
    normList (xs ++ ys) = normList xs ++ normList ys := by
  intro xs
  induction xs with
  | nil => intro ys; simp [normList]
  | cons c rest ih =>
    intro ys
    cases c with
    | text s => simp [normList, ih]
    | elem m => simp [normList, ih]

/-- C6.  Generic collapse: after its own children have been normalized, a
node with role "generic" whose normalized children number at most one, the
child (if present) being a pointer-reachable element node, contributes
exactly those normalized children to its parent (it is removed and its
children spliced at its position — the parent's list is the concatenation
of per-child contributions); a generic node failing the condition, or any
non-generic node, is kept with its normalized children. -/
theorem C6_generic_collapse (f : AriaFields)
    (children pre post : List AriaChild) :
    (f.role = "generic" → (normList children).length ≤ 1 →
      (∀ c ∈ normList children, childIsPointerElem c = true) →
      normChildren (.mk f children) = normList children) ∧
    (f.role = "generic" →
      ¬((normList children).length ≤ 1 ∧
        ∀ c ∈ normList children, childIsPointerElem c = true) →
      normChildren (.mk f children) = [.elem (.mk f (normList children))]) ∧
    (f.role ≠ "generic" →
      normChildren (.mk f children) = [.elem (.mk f (normList children))]) ∧
    normList (pre ++ AriaChild.elem (.mk f children) :: post) =
      normList pre ++ normChildren (.mk f children) ++ normList post := by
  refine ⟨?_, ?_, ?_, ?_⟩
  · intro hrole hlen hall
    rw [normChildren]
    simp only [hrole, beq_self_eq_true, Bool.true_and, decide_eq_true hlen,
      List.all_eq_true.mpr hall, Bool.and_true, if_true]
  · intro hrole hnot
    rw [normChildren]
    have : ¬((decide ((normList children).length ≤ 1) &&
        (normList children).all childIsPointerElem) = true) := by
      intro hb
      rw [Bool.and_eq_true, decide_eq_true_eq, List.all_eq_true] at hb
      exact hnot hb
    simp only [hrole, beq_self_eq_true, Bool.true_and, Bool.and_assoc]
    rw [if_neg this]
  · intro hrole
    rw [normChildren]
    have hb : (f.role == "generic") = false := by
      simp [hrole]
    simp [hb]
  · rw [normList_append]
    have : normList (AriaChild.elem (.mk f children) :: post) =
        normChildren (.mk f children) ++ normList post := by
      rw [normList]
    rw [this, List.append_assoc]

/-- Witness for C6 at concrete inputs: a generic wrapper holding one
pointer-reachable button is removed and the button appears in its former
position among its siblings; a generic node whose single normalized child
is a text run is kept. -/
theorem C6_generic_collapse_witness :
    normChildren (.mk { role := "generic" } [.elem sBtn]) = [.elem sBtn] ∧
    normList [.text "a", .elem (.mk { role := "generic" } [.elem sBtn]),
        .text "b"] =
      [.text "a", .elem sBtn, .text "b"] ∧
    normChildren (.mk { role := "generic" } [.text "t"]) =
      [.elem (.mk { role := "generic" } [.text "t"])] := by
  have hN : normList [AriaChild.elem sBtn] = [.elem sBtn] := by
    simp [sBtn, normList, normChildren]
  have hT : normList [AriaChild.text "t"] = [.text "t"] := by
    rw [normList, normList]
  obtain ⟨h1, -, -, h4⟩ :=
    C6_generic_collapse { role := "generic" } [.elem sBtn]
      [.text "a"] [.text "b"]
  have hg : normChildren (.mk { role := "generic" } [.elem sBtn]) =
      [.elem sBtn] := by
    refine (h1 rfl ?_ ?_).trans hN
    · rw [hN]; simp
    · rw [hN]
      intro c hc
      simp only [List.mem_singleton] at hc
      subst hc
      simp [childIsPointerElem, nodeReceivesPointerEvents, sBtn,
        AriaNode.fields]
  refine ⟨hg, ?_, ?_⟩
  · have h4' := h4
    simp only [List.singleton_append] at h4'
    rw [show ([AriaChild.text "a", .elem (.mk { role := "generic" }
        [.elem sBtn]), .text "b"]) = [AriaChild.text "a"] ++
        AriaChild.elem (.mk { role := "generic" } [.elem sBtn]) ::
        [AriaChild.text "b"] from rfl, h4, hg]
    rw [show normList [AriaChild.text "a"] = [.text "a"] from by
      rw [normList, normList]]
    rw [show normList [AriaChild.text "b"] = [.text "b"] from by
      rw [normList, normList]]
    rfl
  · obtain ⟨-, h2, -, -⟩ :=
      C6_generic_collapse { role := "generic" } [.text "t"]
        ([] : List AriaChild) ([] : List AriaChild)
    refine ((h2 rfl ?_).trans (by rw [hT]))
    rintro ⟨-, hall⟩
    have := hall (.text "t") (by rw [hT]; simp)
    simp [childIsPointerElem] at this

/-! ## Supported-action inference
(src/src/injected/ariaSnapshot.ts, `generateSupportedActions`, lines
592–685, inside `renderAriaTreeAsJSON`) -/

/-- Does `pat` occur at the head of `l`? -/
def startsWithL : List Char → List Char → Bool
  | [], _ => true
  | _ :: _, [] => false
  | p :: ps, c :: cs => p == c && startsWithL ps cs

/-- Does `l` contain `pat` as a contiguous run (JavaScript
`String.prototype.includes`)? -/
def hasSubL (pat : List Char) : List Char → Bool
  | [] => startsWithL pat []
  | c :: cs => startsWithL pat (c :: cs) || hasSubL pat cs

/-- `s.includes(sub)` on strings. -/
def strIncludes (s sub : String) : Bool := hasSubL sub.data s.data

/-- `[...new Set(actions)]`: de-duplication preserving first occurrences. -/
def dedupFirst : List String → List String
  | [] => []
  | a :: l => a :: dedupFirst (l.filter (fun x => x != a))
  termination_by l => l.length
  decreasing_by
    have := List.length_filter_le (fun x => x != a) l
    simp only [List.length_cons]
    omega

lemma mem_dedupFirst (x : String) :
    ∀ (n : Nat) (l : List String), l.length ≤ n → x ∈ l →
      x ∈ dedupFirst l := by
  intro n
  induction n with
  | zero =>
    intro l hl hx
    match l with
    | [] => cases hx
    | a :: t => simp at hl
  | succ n ih =>
    intro l hl hx
    match l with
    | [] => cases hx
    | a :: t =>
      rw [dedupFirst]
      by_cases hxa : x = a
      · simp [hxa]
      · rcases List.mem_cons.mp hx with h | h
        · exact absurd h hxa
        · refine List.mem_cons.mpr (Or.inr (ih _ ?_ ?_))
          · have := List.length_filter_le (fun y => y != a) t
            simp only [List.length_cons] at hl
            omega
          · exact List.mem_filter.mpr ⟨h, by simp [hxa]⟩

/-- `generateSupportedActions(ariaNode)` (lines 592–685): empty unless the
node receives pointer events and carries a ref; then `click` for clickable
nodes, `hover` always, role-specific actions, the forced `[hover]` for
disabled nodes, `file_upload` for file-named textboxes, `drag` for any
non-empty action set, all de-duplicated preserving order. -/
def generateSupportedActions (ariaNode : AriaNode) : List String :=
  let f := ariaNode.fields
  if !nodeReceivesPointerEvents ariaNode || f.ref.isNone then []
  else
    let base : List String :=
      (if f.clickable = some true then ["click"] else []) ++ ["hover"]
    let roleActions : List String :=
      match f.role with
      | "textbox" | "searchbox" => ["type"]
      | "combobox" => ["type", "select_option"]
      | "button" => ["press_key"]
      | "checkbox" | "radio" | "switch" =>
        if f.checked.isSome then ["click"] else []
      | "link" => ["drag"]
      | "listbox" | "option" => ["select_option"]
      | "slider" | "spinbutton" => ["type"]
      | "menuitem" | "tab" => ["press_key"]
      | _ => []
    let acc := base ++ roleActions
    if f.disabled = some true then ["hover"]
    else
      let acc₂ := acc ++
        (if f.role = "textbox" ∧ f.name ≠ "" ∧
            strIncludes f.name.toLower "file" then ["file_upload"] else [])
      let acc₃ := acc₂ ++ (if acc₂.length > 0 then ["drag"] else [])
      dedupFirst acc₃

/-- The guard of `renderAriaTreeAsJSON` that decides whether the rendered
object carries a `supportedActions` field (lines 784–790): the node must
receive pointer events and the inferred action list must be non-empty. -/
def jsonEmitsSupportedActions (n : AriaNode) : Bool :=
  nodeReceivesPointerEvents n && (generateSupportedActions n).length > 0

/-- C9.  A node that is not pointer-reachable (box not visible or pointer
events not received) or that carries no ref gets the empty action list —
regardless of role or clickability — and the object-graph rendering emits
no `supportedActions` field for it; conversely every pointer-reachable,
ref-bearing node is inferred to support at least `hover`. -/
theorem C9_supported_actions_gate :
    (∀ n : AriaNode,
      nodeReceivesPointerEvents n = false ∨ n.fields.ref = none →
      generateSupportedActions n = [] ∧ jsonEmitsSupportedActions n = false) ∧
    (∀ n : AriaNode,
      nodeReceivesPointerEvents n = true → n.fields.ref ≠ none →
      "hover" ∈ generateSupportedActions n) := by
  constructor
  · intro n hgate
    have hempty : generateSupportedActions n = [] := by
      rw [generateSupportedActions]
      rcases hgate with h | h
      · rw [if_pos]
        simp [h]
      · rw [if_pos]
        simp [h]
    refine ⟨hempty, ?_⟩
    rw [jsonEmitsSupportedActions, hempty]
    simp
  · intro n hrpe href
    rw [generateSupportedActions]
    rw [if_neg (by simp [hrpe, Option.isNone_iff_eq_none, href])]
    by_cases hdis : n.fields.disabled = some true
    · simp only [hdis, if_true]
      simp
    · simp only [hdis, if_false]
      refine mem_dedupFirst "hover" _ _ le_rfl ?_
      refine List.mem_append.mpr (Or.inl ?_)
      refine List.mem_append.mpr (Or.inl ?_)
      refine List.mem_append.mpr (Or.inl ?_)
      exact List.mem_append.mpr (Or.inr (by simp))

/-- A combobox node carrying no ref (used by the C9 witness). -/
def c9NoRefNode : AriaNode := .mk { role := "combobox" } []

/-- A textbox with a ref whose box is not visible (C9 witness). -/
def c9HiddenNode : AriaNode :=
  .mk { role := "textbox", ref := some "e1", box := ⟨false, false⟩ } []

/-- A visible checkbox with a ref and a defined checked state (C9 witness). -/
def c9CheckboxNode : AriaNode :=
  .mk { role := "checkbox", ref := some "e2", checked := some MixedBool.tt } []

/-- Witness for C9 at concrete inputs: a ref-less combobox and an invisible
textbox with a ref both get no actions and no `supportedActions` field; a
visible checkbox with a ref supports `hover`. -/
theorem C9_supported_actions_gate_witness :
    generateSupportedActions c9NoRefNode = [] ∧
    jsonEmitsSupportedActions c9HiddenNode = false ∧
    "hover" ∈ generateSupportedActions c9CheckboxNode := by
  obtain ⟨h1, h2⟩ := C9_supported_actions_gate
  refine ⟨?_, ?_, ?_⟩
  · exact (h1 c9NoRefNode
      (Or.inr (by simp [c9NoRefNode, AriaNode.fields]))).1
  · exact (h1 c9HiddenNode
      (Or.inl (by simp [c9HiddenNode, nodeReceivesPointerEvents,
        AriaNode.fields]))).2
  · exact h2 c9CheckboxNode
      (by simp [c9CheckboxNode, nodeReceivesPointerEvents, AriaNode.fields])
      (by simp [c9CheckboxNode, AriaNode.fields])

/-! ## Deep search (src/src/injected/ariaSnapshot.ts, `matchesNodeDeep`,
lines 463–484)

`visit(node, parent)` tests the node against the template; on a match it
records the node itself — or, when the node is a text run, its parent
AriaNode (nothing when a text run matches with no parent) — and reports
whether the search should stop (`!collectAll`).  Otherwise it recurses
into element children left to right, stopping early when a child visit
reports true.  The embedding returns the recorded list and the stop flag. -/

lemma sizeOf_children_lt (n : AriaNode) : sizeOf n.children < 1 + sizeOf n := by
  cases n with
  | mk f cs =>
    simp only [AriaNode.children, AriaNode.mk.sizeOf_spec]
    omega

mutual
/-- `visit(node, parent)` of `matchesNodeDeep`: on a match, a text run
records its parent (nothing when there is no parent) and an element
records itself, reporting `!collectAll` as the stop flag; otherwise a text
run contributes nothing and an element recurses into its children. -/
def visitDeep (t : Tmpl) (ca d : Bool) (node : AriaChild)
    (parent : Option AriaNode) : List AriaNode × Bool :=
  match node with
  | .text s =>
    if matchesNode (.text s) t d then
      match parent with
      | some p => ([p], !ca)
      | none => ([], !ca)
    else ([], false)
  | .elem n =>
    if matchesNode (.elem n) t d then ([n], !ca)
    else visitDeepList t ca d n.children n
  termination_by sizeOf node
  decreasing_by
    all_goals (try simp_wf)
    all_goals (try omega)
    all_goals exact sizeOf_children_lt _

/-- The child loop of `visit` with its early exit. -/
def visitDeepList (t : Tmpl) (ca d : Bool) (cs : List AriaChild)
    (p : AriaNode) : List AriaNode × Bool :=
  match cs with
  | [] => ([], false)
  | c :: rest =>
    let r := visitDeep t ca d c (some p)
    if r.2 then r
    else
      let r₂ := visitDeepList t ca d rest p
      (r.1 ++ r₂.1, r₂.2)
  termination_by sizeOf cs
  decreasing_by
    all_goals (try simp_wf)
    all_goals (try omega)
    all_goals exact sizeOf_children_lt _
end

/-- `matchesNodeDeep(root, template, collectAll, isDeepEqual)`: the
recorded matches of the deep search. -/
def matchesNodeDeep (root : AriaNode) (t : Tmpl) (ca d : Bool) :
    List AriaNode :=
  (visitDeep t ca d (.elem root) none).1

/-- A recorded match is legitimate: the node matches the template itself,
or one of its text-run children does. -/
def deepGood (t : Tmpl) (d : Bool) (r : AriaNode) : Prop :=
  matchesNode (.elem r) t d = true ∨
    ∃ s, AriaChild.text s ∈ r.children ∧ matchesNode (.text s) t d = true

lemma deepSound (t : Tmpl) (ca d : Bool) : ∀ k : Nat,
    (∀ (node : AriaChild) (parent : Option AriaNode), sizeOf node ≤ k →
      (∀ p s, parent = some p → node = .text s →
        AriaChild.text s ∈ p.children) →
      ∀ r ∈ (visitDeep t ca d node parent).1, deepGood t d r) ∧
    (∀ (cs : List AriaChild) (p : AriaNode), sizeOf cs ≤ k →
      (∀ c ∈ cs, c ∈ p.children) →
      ∀ r ∈ (visitDeepList t ca d cs p).1, deepGood t d r) := by
  intro k
  induction k using Nat.strong_induction_on with
  | _ k ih =>
    constructor
    · intro node parent hk hpar r hr
      rw [visitDeep.eq_def] at hr
      cases node with
      | text s =>
        dsimp only at hr
        by_cases hm : matchesNode (.text s) t d = true
        · rw [if_pos hm] at hr
          cases parent with
          | some p =>
            simp at hr
            subst hr
            exact Or.inr ⟨s, hpar _ s rfl rfl, hm⟩
          | none => simp at hr
        · rw [if_neg hm] at hr
          simp at hr
      | elem n =>
        dsimp only at hr
        by_cases hm : matchesNode (.elem n) t d = true
        · rw [if_pos hm] at hr
          simp at hr
          subst hr
          exact Or.inl hm
        · rw [if_neg hm] at hr
          have hlt : sizeOf n.children < k := by
            have h1 := sizeOf_children_lt n
            have h2 : sizeOf (AriaChild.elem n) = 1 + sizeOf n := by
              simp [AriaChild.elem.sizeOf_spec]
            omega
          exact (ih _ hlt).2 n.children n le_rfl (fun c hc => hc) r hr
    · intro cs p hk hsub r hr
      rw [visitDeepList.eq_def] at hr
      cases cs with
      | nil => simp at hr
      | cons c rest =>
        dsimp only at hr
        have hc : ∀ p' s, some p = some p' → c = AriaChild.text s →
            AriaChild.text s ∈ p'.children := by
          rintro p' s hpp rfl
          cases hpp
          exact hsub _ (List.mem_cons_self _ _)
        have hck : sizeOf c < k := by
          have : sizeOf (c :: rest) = 1 + sizeOf c + sizeOf rest := by
            simp
          omega
        have hrk : sizeOf rest < k := by
          have : sizeOf (c :: rest) = 1 + sizeOf c + sizeOf rest := by
            simp
          have : 0 < sizeOf c := by
            cases c <;> simp [AriaChild.elem.sizeOf_spec,
              AriaChild.text.sizeOf_spec] <;> omega
          omega
        by_cases hstop : (visitDeep t ca d c (some p)).2 = true
        · rw [if_pos hstop] at hr
          exact (ih _ hck).1 c (some p) le_rfl hc r hr
        · rw [if_neg hstop] at hr
          simp only [List.mem_append] at hr
          rcases hr with hr | hr
          · exact (ih _ hck).1 c (some p) le_rfl hc r hr
          · exact (ih _ hrk).2 rest p le_rfl
              (fun x hx => hsub x (List.mem_cons_of_mem _ hx)) r hr

/-- C10.  Every node recorded by the deep search either itself matches the
template or is the parent AriaNode containing a literal text run that
matches: a text match is always reported through the AriaNode that holds
the text (including the synthetic fragment root for a text run at its own
level), never as a bare string — so `matchesAriaTree` and `getAllByAria`
only return element-backed nodes. -/
theorem C10_text_matches_report_parent (root : AriaNode) (t : Tmpl)
    (ca d : Bool) :
    ∀ r ∈ matchesNodeDeep root t ca d,
      matchesNode (.elem r) t d = true ∨
        ∃ s, AriaChild.text s ∈ r.children ∧
          matchesNode (.text s) t d = true := by
  intro r hr
  exact (deepSound t ca d (sizeOf (AriaChild.elem root))).1 (.elem root) none
    le_rfl (by rintro p s ⟨⟩) r hr

/-- The synthetic fragment root with a single text run (C10 witness). -/
def c10Root : AriaNode := .mk { role := "fragment" } [.text "hello"]

/-- A text template matching that run (C10 witness). -/
def c10Tmpl : Tmpl := .text (some (.str "hello"))

/-- Witness for C10 at a concrete input: a text template matching a text
run sitting directly under the fragment root records the fragment root
itself (an AriaNode), and the theorem's disjunction holds for it — the
fragment root contains the matching text run. -/
theorem C10_text_matches_report_parent_witness :
    matchesNodeDeep c10Root c10Tmpl false false = [c10Root] ∧
    (matchesNode (.elem c10Root) c10Tmpl false = true ∨
      ∃ s, AriaChild.text s ∈ c10Root.children ∧
        matchesNode (.text s) c10Tmpl false = true) := by
  have hroot : matchesNode (.elem c10Root) c10Tmpl false = false := by
    simp only [c10Tmpl]
    rw [matchesNode]
  have htext : matchesNode (.text "hello") c10Tmpl false = true := by
    simp only [c10Tmpl]
    rw [matchesNode]
    simp [matchesText]
  have h4 : visitDeep c10Tmpl false false (.text "hello") (some c10Root) =
      ([c10Root], true) := by
    rw [visitDeep.eq_def]
    dsimp only
    rw [htext]
    simp
  have h3 : visitDeepList c10Tmpl false false [AriaChild.text "hello"]
      c10Root = ([c10Root], true) := by
    rw [visitDeepList.eq_def]
    dsimp only
    rw [h4]
    simp
  have h1 : visitDeep c10Tmpl false false (.elem c10Root) none =
      visitDeepList c10Tmpl false false c10Root.children c10Root := by
    rw [visitDeep.eq_def]
    dsimp only
    rw [hroot]
    simp
  have heval : matchesNodeDeep c10Root c10Tmpl false false = [c10Root] := by
    rw [matchesNodeDeep, h1,
      show c10Root.children = [AriaChild.text "hello"] from rfl, h3]
  refine ⟨heval, ?_⟩
  exact C10_text_matches_report_parent c10Root c10Tmpl false false c10Root
    (by rw [heval]; exact List.mem_singleton.mpr rfl)

/-! ## Best-guess-pattern text informativeness
(src/src/injected/ariaSnapshot.ts, `textContributesInfo`, lines 942–958)

`longestCommonSubstring` and `normalizeWhiteSpace` come from
`@isomorphic/stringUtils`, which is not under src/; the former is modelled
from the spec below.  The removal loop
`while (substr && filtered.includes(substr)) filtered =
filtered.replace(substr, "")` removes occurrences one at a time
(JavaScript `replace` with a string pattern replaces the first occurrence
only), re-testing containment after each removal. -/

/-- JavaScript `s.replace(pat, "")` on character lists: remove the first
occurrence of `pat`, if any. -/
def replaceFirstL (pat : List Char) : List Char → List Char
  | [] => []
  | c :: cs =>
    if startsWithL pat (c :: cs) then (c :: cs).drop pat.length
    else c :: replaceFirstL pat cs

lemma startsWithL_length_le : ∀ (pat l : List Char),
    startsWithL pat l = true → pat.length ≤ l.length := by
  intro pat
  induction pat with
  | nil => intro l h; simp
  | cons p ps ih =>
    intro l h
    cases l with
    | nil => simp [startsWithL] at h
    | cons c cs =>
      simp only [startsWithL, Bool.and_eq_true] at h
      have := ih cs h.2
      simp only [List.length_cons]
      omega

lemma replaceFirstL_length_lt (pat : List Char) (hp : pat ≠ []) :
    ∀ l : List Char, hasSubL pat l = true →
      (replaceFirstL pat l).length < l.length := by
  intro l
  induction l with
  | nil =>
    intro h
    cases pat with
    | nil => exact absurd rfl hp
    | cons p ps => simp [hasSubL, startsWithL] at h
  | cons c cs ih =>
    intro h
    rw [hasSubL, Bool.or_eq_true] at h
    by_cases hs : startsWithL pat (c :: cs) = true
    · rw [replaceFirstL, if_pos hs]
      have h1 := startsWithL_length_le pat (c :: cs) hs
      have h2 : pat.length ≥ 1 := by
        cases pat with
        | nil => exact absurd rfl hp
        | cons p ps => simp only [List.length_cons]; omega
      rw [List.length_drop]
      simp only [List.length_cons] at h1 ⊢
      omega
    · rw [replaceFirstL, if_neg hs]
      rcases h with h | h
      · exact absurd h hs
      · have := ih h
        simp only [List.length_cons]
        omega

/-- The removal loop of `textContributesInfo`: while the pattern is
non-empty (truthy) and still contained, remove its first occurrence. -/
def removeLoopL (pat l : List Char) : List Char :=
  if h : pat ≠ [] ∧ hasSubL pat l = true then
    removeLoopL pat (replaceFirstL pat l)
  else l
  termination_by l.length
  decreasing_by exact replaceFirstL_length_lt pat h.1 l h.2

/-- JavaScript `String.prototype.trim` on character lists: drop leading
and trailing whitespace. -/
def trimL (l : List Char) : List Char :=
  ((l.dropWhile Char.isWhitespace).reverse.dropWhile Char.isWhitespace).reverse

/-- Modelled from the spec: `longestCommonSubstring(text, name)` of
`@isomorphic/stringUtils` (not under src/) — a longest string occurring as
a contiguous run in both arguments ("its longest run shared with the
node's own name"). -/
def longestCommonSubstring (s t : String) : String :=
  let cands := (s.data.tails.map (fun suf => suf.inits)).join
  ⟨cands.foldl
    (fun acc c =>
      if hasSubL c t.data && decide (c.length > acc.length) then c else acc)
    []⟩

/-- `textContributesInfo(node, text)` (lines 942–958): empty text is never
informative; any text under an unnamed node is; text shorter than the name
is not; otherwise remove every occurrence of the longest substring shared
with the name (computed only when both strings are at most 200 characters)
and require the trimmed remainder to exceed 10% of the text's length
(`filtered.trim().length / text.length > 0.1`, embedded exactly as
`10 * remainder > length`). -/
def textContributesInfo (node : AriaNode) (text : String) : Bool :=
  if text.length = 0 then false
  else if node.fields.name = "" then true
  else if node.fields.name.length > text.length then false
  else
    let substr :=
      if text.length ≤ 200 && node.fields.name.length ≤ 200 then
        longestCommonSubstring text node.fields.name
      else ""
    let filtered := removeLoopL substr.data text.data
    decide (10 * (trimL filtered).length > text.length)

/-- The informativeness criterion as the claim words it: the text is
informative iff, after removing the longest substring shared with the
name, strictly more than 10% of its characters remain (empty text never
informative, any text under an empty name informative) — with no
name-longer-than-text cutoff and no 200-character bound. -/
def textContributesInfoClaimed (name text : String) : Bool :=
  if text.length = 0 then false
  else if name = "" then true
  else
    let substr := longestCommonSubstring text name
    let filtered := removeLoopL substr.data text.data
    decide (10 * (trimL filtered).length > text.length)

/-- Counterexample to C8: for a node named "xyz" and the text run "ab",
the claimed criterion judges the text informative (no shared substring, so
100% of it remains), but the source returns false up front because the
name is longer than the text (`if (node.name.length > text.length) return
false`, line 947) — a cutoff the claim omits. -/
theorem C8_informative_counterexample :
    textContributesInfo (.mk { role := "generic", name := "xyz" } []) "ab" =
      false ∧
    textContributesInfoClaimed "xyz" "ab" = true := by
  constructor
  · decide
  · have hlcs : longestCommonSubstring "ab" "xyz" = "" := by decide
    rw [textContributesInfoClaimed]
    rw [if_neg (by decide), if_neg (by decide)]
    simp only [hlcs]
    rw [removeLoopL, dif_neg (by simp)]
    decide

/-- C8 (amended).  In regex mode a text run is judged informative iff the
text is non-empty and either the node's name is empty, or the name is no
longer than the text and, after repeatedly removing the longest substring
shared with the name (computed only when both strings are at most 200
characters, else taken empty), the trimmed remainder strictly exceeds 10%
of the text's length. -/
theorem C8_informative_amended (n : AriaNode) (text : String) :
    (text.length = 0 → textContributesInfo n text = false) ∧
    (text.length ≠ 0 → n.fields.name = "" →
      textContributesInfo n text = true) ∧
    (text.length ≠ 0 → n.fields.name ≠ "" →
      n.fields.name.length > text.length →
      textContributesInfo n text = false) ∧
    (text.length ≠ 0 → n.fields.name ≠ "" →
      n.fields.name.length ≤ text.length →
      (textContributesInfo n text = true ↔
        10 * (trimL (removeLoopL
          (if text.length ≤ 200 && n.fields.name.length ≤ 200 then
            longestCommonSubstring text n.fields.name
          else "").data text.data)).length > text.length)) := by
  refine ⟨?_, ?_, ?_, ?_⟩
  · intro h
    rw [textContributesInfo, if_pos h]
  · intro h hn
    rw [textContributesInfo, if_neg h, if_pos hn]
  · intro h hn hlen
    rw [textContributesInfo, if_neg h, if_neg hn, if_pos hlen]
  · intro h hn hlen
    rw [textContributesInfo, if_neg h, if_neg hn,
      if_neg (by omega : ¬n.fields.name.length > text.length)]
    simp

/-- Witness for C8 (amended) at concrete inputs: for a node named "OK" and
the text "OK yes", the shared substring "OK" is removed, the trimmed
remainder "yes" keeps 3 of 6 characters (more than 10%), and the source
judges the text informative; the empty text is not informative. -/
theorem C8_informative_amended_witness :
    textContributesInfo (.mk { role := "generic", name := "OK" } [])
      "OK yes" = true ∧
    textContributesInfo (.mk { role := "generic", name := "OK" } []) "" =
      false := by
  have hlcs : longestCommonSubstring "OK yes" "OK" = "OK" := by decide
  have hrem : removeLoopL "OK".data "OK yes".data = " yes".data := by
    rw [removeLoopL, dif_pos (by decide),
      show replaceFirstL "OK".data "OK yes".data = " yes".data from by decide,
      removeLoopL, dif_neg (by decide)]
  obtain ⟨hzero, -, -, hmain⟩ :=
    C8_informative_amended (.mk { role := "generic", name := "OK" } [])
      "OK yes"
  refine ⟨?_, ?_⟩
  · refine (hmain (by decide) (by decide) (by decide)).2 ?_
    rw [show (if ("OK yes").length ≤ 200 &&
        (AriaNode.mk { role := "generic", name := "OK" } []).fields.name.length
          ≤ 200 then
        longestCommonSubstring "OK yes"
          (AriaNode.mk { role := "generic", name := "OK" } []).fields.name
      else "") = "OK" from by rw [if_pos (by decide)]; exact hlcs]
    rw [hrem]
    decide
  · exact (C8_informative_amended
      (.mk { role := "generic", name := "OK" } []) "").1 rfl

/-! ## Tree Builder (src/src/injected/ariaSnapshot.ts, `generateAriaTree`,
lines 67–184, with `toAriaNode` lines 203–288 and
`normalizeStringChildren` lines 315–347)

The DOM is embedded as a tree of nodes; per the spec (§1, §2) the
role/name/state oracle (roleUtils) and the style oracle (domUtils) are
external, so their per-element answers — hidden-for-aria, visible, role,
accessible name, pointer-event reception, the state fields applicable to
the role, computed display, CSS `::before`/`::after` content — are carried
as data on each element.  The embedded DOM is a plain tree: explicit
`aria-owns` ownership edges, slot redirection and shadow subtrees are not
represented (they redirect traversal but play no part in the root-type
dispatch the claims concern; on such trees the visited set of the source
never fires and is omitted). -/

/-- `getGlobalOptions()` of domUtils (external): only the
`inputFileRoleTextbox` flag is consulted here. -/
structure GlobalOpts where
  inputFileRoleTextbox : Bool := false
  deriving DecidableEq, Repr

/-- Oracle-supplied data of a DOM element. -/
structure ElemData where
  nodeName : String := ""
  hiddenForAria : Bool := false
  visibleForAI : Bool := false
  ariaRole : Option String := none
  accName : String := ""
  recvPointerEvents : Bool := true
  boxVisible : Bool := true
  cursorPointer : Bool := false
  checked : Option MixedBool := none
  disabled : Option Bool := none
  expanded : Option Bool := none
  level : Option Nat := none
  pressed : Option MixedBool := none
  selected : Option Bool := none
  hasOnclick : Bool := false
  roleAttr : Option String := none
  inputType : Option String := none
  value : String := ""
  displayInline : Bool := true
  cssBefore : Option String := none
  cssAfter : Option String := none
  href : Option String := none
  refCache : Option AriaRef := none
  elemId : Nat := 0
  deriving DecidableEq, Repr

/-- A DOM node: an element, a text node, or any other node kind (comment,
document, ...). -/
inductive DomNode where
  | element (data : ElemData) (children : List DomNode)
  | text (value : String)
  | other

/-- Build state threaded through the traversal: the global `lastRef`
counter and the snapshot's ref → element map. -/
structure BuildSt where
  counter : Nat
  elements : List (String × Nat)
  deriving DecidableEq, Repr

/-- `options?.forAI` (undefined options give false). -/
def optForAI (options : Option BuildOptions) : Bool :=
  match options with
  | some o => o.forAI
  | none => false

/-- Modelled from the spec: `normalizeWhiteSpace` of
`@isomorphic/stringUtils` (not under src/) — split into maximal
non-whitespace words. -/
def normWSWords (l : List Char) : List (List Char) :=
  (l.foldr
    (fun c acc =>
      if c.isWhitespace then [] :: acc
      else
        match acc with
        | [] => [[c]]
        | w :: ws => (c :: w) :: ws)
    []).filter (fun w => w ≠ [])

/-- Join words with single spaces. -/
def joinWords : List (List Char) → List Char
  | [] => []
  | [w] => w
  | w :: ws => w ++ ' ' :: joinWords ws

/-- Modelled from the spec: whitespace normalization — collapse whitespace
runs to single spaces and trim both ends. -/
def normalizeWhiteSpace (s : String) : String := ⟨joinWords (normWSWords s.data)⟩

/-- `buffer.join("")` on strings. -/
def joinStr (l : List String) : String := ⟨(l.map String.data).join⟩

/-- `toAriaNode(element, options)` (lines 203–288): an IFRAME maps to an
"iframe" node; otherwise the oracle role (defaulting to "generic" under
`forAI`) is taken, `presentation`/`none` and roleless elements yield
nothing, and the node gets the normalized accessible name, a ref from
`ariaRef`, the oracle state fields (the `kAria*Roles` dispatch of
roleUtils is folded into the oracle data), the computed `clickable` flag,
and — for input/textarea elements outside checkbox/radio (and file inputs
unless `inputFileRoleTextbox`) — the control's value as an initial text
child.  Returns the new fields with initial children, and the advanced
counter. -/
def toAriaNode (g : GlobalOpts) (counter : Nat) (e : ElemData)
    (options : Option BuildOptions) :
    Option (AriaFields × List AriaChild) × Nat :=
  if e.nodeName = "IFRAME" then
    let rs := ariaRef ⟨counter, e.refCache⟩ "iframe" "" options
    (some ({ role := "iframe", name := "", ref := rs.1,
             element := e.elemId, box := ⟨e.boxVisible, e.cursorPointer⟩,
             receivesPointerEvents := true }, []), rs.2.lastRef)
  else
    let defaultRole : Option String :=
      if optForAI options then some "generic" else none
    match (match e.ariaRole with | some r => some r | none => defaultRole) with
    | none => (none, counter)
    | some role =>
      if role = "presentation" ∨ role = "none" then (none, counter)
      else
        let name := normalizeWhiteSpace e.accName
        let rs := ariaRef ⟨counter, e.refCache⟩ role name options
        let clickable := e.recvPointerEvents &&
          (["button", "link", "menuitem", "tab", "option", "checkbox",
              "radio", "switch"].contains role ||
            e.hasOnclick ||
            (e.roleAttr.isSome &&
              ["button", "link"].contains (e.roleAttr.getD "")))
        let children₀ : List AriaChild :=
          match e.inputType with
          | none => []
          | some t =>
            if t ≠ "checkbox" ∧ t ≠ "radio" ∧
                (t ≠ "file" ∨ g.inputFileRoleTextbox) then
              [.text e.value]
            else []
        (some ({ role := role, name := name, ref := rs.1,
                 checked := e.checked, disabled := e.disabled,
                 expanded := e.expanded, level := e.level,
                 pressed := e.pressed, selected := e.selected,
                 clickable := some clickable,
                 element := e.elemId, box := ⟨e.boxVisible, e.cursorPointer⟩,
                 receivesPointerEvents := e.recvPointerEvents }, children₀),
         rs.2.lastRef)

mutual
/-- `visit(ariaNode, node)` (lines 86–122): text nodes append their value
to the current node unless it is a textbox; non-element, non-text nodes
are ignored; hidden elements are skipped entirely; visible elements map
through `toAriaNode` — a produced node is recorded (and its ref entered in
the element map) and filled by `processElement`, a suppressed one lets its
content flow into the current node. -/
def visitDom (g : GlobalOpts) (options : Option BuildOptions) (st : BuildSt)
    (pn : AriaFields × List AriaChild) (node : DomNode) :
    BuildSt × (AriaFields × List AriaChild) :=
  match node with
  | .text v =>
    if v ≠ "" ∧ pn.1.role ≠ "textbox" then (st, (pn.1, pn.2 ++ [.text v]))
    else (st, pn)
  | .other => (st, pn)
  | .element e kids =>
    let isVisible := !e.hiddenForAria || (optForAI options && e.visibleForAI)
    if !isVisible then (st, pn)
    else
      match toAriaNode g st.counter e options with
      | (none, c') =>
        processElement g options { st with counter := c' } pn e kids
      | (some (f, init), c') =>
        let st₁ : BuildSt :=
          { counter := c',
            elements :=
              match f.ref with
              | some r => st.elements ++ [(r, e.elemId)]
              | none => st.elements }
        let r := processElement g options st₁ (f, init) e kids
        (r.1, (pn.1, pn.2 ++ [.elem (.mk r.2.1 r.2.2)]))
  termination_by (sizeOf node, 0)

/-- `processElement(ariaNode, element, ariaChildren)` (lines 124–172): a
block-level or BR element is surrounded by single synthetic space runs;
`::before` and `::after` content wrap the visited children; a node whose
sole accumulated child is a text run equal to its own name drops it; a
link element with an href records the `url` property. -/
def processElement (g : GlobalOpts) (options : Option BuildOptions)
    (st : BuildSt) (pn : AriaFields × List AriaChild) (e : ElemData)
    (kids : List DomNode) : BuildSt × (AriaFields × List AriaChild) :=
  let treatAsBlock := !e.displayInline || e.nodeName = "BR"
  let pn := if treatAsBlock then (pn.1, pn.2 ++ [.text " "]) else pn
  let pn := (pn.1, pn.2 ++ [AriaChild.text (e.cssBefore.getD "")])
  let r := visitDomList g options st pn kids
  let st := r.1
  let pn := r.2
  let pn := (pn.1, pn.2 ++ [AriaChild.text (e.cssAfter.getD "")])
  let pn := if treatAsBlock then (pn.1, pn.2 ++ [.text " "]) else pn
  let clear : Bool :=
    match pn.2 with
    | [AriaChild.text s] => s == pn.1.name
    | _ => false
  let pn := if clear then (pn.1, ([] : List AriaChild)) else pn
  let pn :=
    if pn.1.role = "link" ∧ e.href.isSome then
      ({ pn.1 with props := pn.1.props ++ [("url", e.href.getD "")] }, pn.2)
    else pn
  (st, pn)
  termination_by (sizeOf kids, 1)

/-- The child iteration of `processElement`. -/
def visitDomList (g : GlobalOpts) (options : Option BuildOptions)
    (st : BuildSt) (pn : AriaFields × List AriaChild) :
    List DomNode → BuildSt × (AriaFields × List AriaChild)
  | [] => (st, pn)
  | k :: ks =>
    let r := visitDom g options st pn k
    visitDomList g options r.1 r.2 ks
  termination_by ks => (sizeOf ks, 0)
end

/-- `flushChildren(buffer, normalizedChildren)` (lines 317–324): emit the
whitespace-normalized concatenation of the buffered strings, if any
remains. -/
def flushChildren (buffer : List String) (tail : List AriaChild) :
    List AriaChild :=
  if buffer = [] then tail
  else
    let text := normalizeWhiteSpace (joinStr buffer)
    if text ≠ "" then AriaChild.text text :: tail else tail

mutual
/-- `normalizeStringChildren` (lines 315–347): coalesce runs of adjacent
text children, whitespace-normalize them, drop empty results, and drop a
sole text child equal to the node's own name. -/
def normalizeStringChildren (n : AriaNode) : AriaNode :=
  match n with
  | .mk f children =>
    let nc := normStringList children []
    let nc :=
      if (match nc with
          | [AriaChild.text s] => s == f.name
          | _ => false : Bool) then ([] : List AriaChild)
      else nc
    .mk f nc
  termination_by (sizeOf n, 0)

/-- The child loop of `normalizeStringChildren` with its string buffer. -/
def normStringList (children : List AriaChild) (buffer : List String) :
    List AriaChild :=
  match children with
  | [] => flushChildren buffer []
  | .text s :: rest => normStringList rest (buffer ++ [s])
  | .elem m :: rest =>
    flushChildren buffer
      (AriaChild.elem (normalizeStringChildren m) :: normStringList rest [])
  termination_by (sizeOf children, 1)
end

/-- A built snapshot: the root node and the ref → element map. -/
structure AriaSnapshotM where
  root : AriaNode
  elements : List (String × Nat)

/-- The opaque element identity of a DOM node. -/
def domElemId : DomNode → Nat
  | .element e _ => e.elemId
  | _ => 0

/-- The box of a DOM node (non-elements get the default box). -/
def domBox : DomNode → Box
  | .element e _ => ⟨e.boxVisible, e.cursorPointer⟩
  | _ => ⟨true, false⟩

/-- `generateAriaTree(rootElement, options)` (src/src/injected/
ariaSnapshot.ts lines 67–184): build the fragment root, visit the root
node, then apply `normalizeStringChildren` and `normalizeGenericRoles`.
The global counter is threaded explicitly (initial value `c₀`); the
returned pair is the snapshot and the counter after the build.  This
inner helper performs no root-type validation of its own — that guard
lives in the exported entry points of src/src/injected/a11y.ts (see
`ariaSnapshotEntry` below). -/
def generateAriaTree (g : GlobalOpts) (rootElement : DomNode) (c₀ : Nat)
    (options : Option BuildOptions) : AriaSnapshotM × Nat :=
  let rootFields : AriaFields :=
    { role := "fragment", name := "", element := domElemId rootElement,
      box := domBox rootElement, receivesPointerEvents := true }
  let r := visitDom g options ⟨c₀, []⟩ (rootFields, []) rootElement
  let root₁ := normalizeStringChildren (.mk r.2.1 r.2.2)
  let root₂ := normalizeGenericRoles root₁
  ({ root := root₂, elements := r.1.elements }, r.1.counter)

lemma joinStr_singleton (s : String) : joinStr [s] = s := by
  cases s with
  | mk l => simp [joinStr]

lemma normList_nil : normList [] = [] := by
  rw [normList]

lemma normList_single_text (x : String) :
    normList [AriaChild.text x] = [AriaChild.text x] := by
  rw [normList, normList]

lemma nsc_frag_nil :
    normalizeStringChildren (.mk { role := "fragment" } []) =
      .mk { role := "fragment" } [] := by
  rw [normalizeStringChildren, normStringList, flushChildren, if_pos rfl]
  simp

lemma nsc_frag_text (s : String) :
    normalizeStringChildren (.mk { role := "fragment" } [.text s]) =
      .mk { role := "fragment" }
        (if normalizeWhiteSpace s = "" then []
         else [.text (normalizeWhiteSpace s)]) := by
  rw [normalizeStringChildren, normStringList, normStringList]
  rw [show ([] ++ [s] : List String) = [s] from rfl]
  rw [flushChildren]
  rw [if_neg (show ¬([s] : List String) = [] by simp)]
  simp only [joinStr_singleton]
  by_cases ht : normalizeWhiteSpace s = ""
  · simp [ht]
  · simp [ht]

lemma nGR_frag (children : List AriaChild) :
    normalizeGenericRoles (.mk { role := "fragment" } children) =
      .mk { role := "fragment" } (normList children) := by
  rw [normalizeGenericRoles, inPlaceNode]
  simp

lemma generateAriaTree_text (g : GlobalOpts) (s : String) (c₀ : Nat)
    (options : Option BuildOptions) :
    generateAriaTree g (DomNode.text s) c₀ options =
      ({ root := .mk { role := "fragment" }
           (if s = "" ∨ normalizeWhiteSpace s = "" then []
            else [AriaChild.text (normalizeWhiteSpace s)]),
         elements := [] }, c₀) := by
  rw [generateAriaTree]
  dsimp only [domElemId, domBox]
  rw [visitDom]
  dsimp only
  by_cases hs : s = ""
  · rw [if_neg (by simp [hs])]
    rw [nsc_frag_nil, nGR_frag, normList_nil]
    simp [hs]
  · rw [if_pos ⟨hs, by decide⟩]
    dsimp only
    rw [show ([] ++ [AriaChild.text s] : List AriaChild) =
      [AriaChild.text s] from rfl]
    rw [nsc_frag_text]
    by_cases ht : normalizeWhiteSpace s = ""
    · rw [if_pos ht, nGR_frag, normList_nil]
      simp [hs, ht]
    · rw [if_neg ht, nGR_frag, normList_single_text]
      simp [hs, ht]

lemma generateAriaTree_other (g : GlobalOpts) (c₀ : Nat)
    (options : Option BuildOptions) :
    generateAriaTree g DomNode.other c₀ options =
      ({ root := .mk { role := "fragment" } [], elements := [] }, c₀) := by
  rw [generateAriaTree]
  dsimp only [domElemId, domBox]
  rw [visitDom]
  dsimp only
  rw [nsc_frag_nil, nGR_frag, normList_nil]

/-- `node.nodeType === Node.ELEMENT_NODE` — the root-type test of the
entry points in src/src/injected/a11y.ts. -/
def DomNode.isElement : DomNode → Bool
  | .element _ _ => true
  | _ => false

/-- The exported build entry points `ariaSnapshot(node, options)` and
`ariaSnapshotJSON(node, options)` of src/src/injected/a11y.ts: both begin
with `if (node.nodeType !== Node.ELEMENT_NODE) throw ... "Can only
capture aria snapshot of Element nodes."` and only then call
`generateAriaTree(node as Element, options)` (storing the snapshot and
rendering it; rendering is outside this development).  The throw is
modelled as `Except.error` carrying the error message — the spec's
InvalidRoot. -/
def ariaSnapshotEntry (g : GlobalOpts) (node : DomNode) (c₀ : Nat)
    (options : Option BuildOptions) : Except String (AriaSnapshotM × Nat) :=
  match node with
  | .element _ _ => .ok (generateAriaTree g node c₀ options)
  | _ => .error "Can only capture aria snapshot of Element nodes."

/-- C7.  For every input that is not an element-typed node, the tree build
operation fails with the InvalidRoot error rather than producing a
Snapshot: the exported entry points `ariaSnapshot` and `ariaSnapshotJSON`
(src/src/injected/a11y.ts) test `node.nodeType !== Node.ELEMENT_NODE`
before building and throw "Can only capture aria snapshot of Element
nodes." — so a non-element root never reaches `generateAriaTree`, while
an element root always produces the built Snapshot. -/
theorem C7_invalid_root_guard (g : GlobalOpts) (c₀ : Nat)
    (options : Option BuildOptions) :
    (∀ node : DomNode, node.isElement = false →
      ariaSnapshotEntry g node c₀ options =
        .error "Can only capture aria snapshot of Element nodes.") ∧
    (∀ (e : ElemData) (kids : List DomNode),
      ariaSnapshotEntry g (.element e kids) c₀ options =
        .ok (generateAriaTree g (.element e kids) c₀ options)) := by
  constructor
  · intro node h
    cases node with
    | element e kids => simp [DomNode.isElement] at h
    | text v => rfl
    | other => rfl
  · intro e kids
    rfl

/-- Witness for C7 at concrete inputs: a text-node root is rejected with
the InvalidRoot error, and an element root is accepted and built. -/
theorem C7_invalid_root_guard_witness :
    ariaSnapshotEntry ⟨false⟩ (DomNode.text "hello") 0 none =
      .error "Can only capture aria snapshot of Element nodes." ∧
    ariaSnapshotEntry ⟨false⟩ (DomNode.element {} []) 0 none =
      .ok (generateAriaTree ⟨false⟩ (DomNode.element {} []) 0 none) :=
  ⟨(C7_invalid_root_guard ⟨false⟩ 0 none).1 (DomNode.text "hello") rfl,
   (C7_invalid_root_guard ⟨false⟩ 0 none).2 {} []⟩
